import Mathlib

/-!
Shallow embedding of the GitHub CLI search client
(`src/cacheManager.ts`, `src/apiClient.ts`, `src/dataService.ts`,
`src/types.ts`) and proofs about its cache layer, error normalizer,
response validator and data-service orchestration.

Conventions of the embedding:
* JavaScript timestamps (`Date.now()` values, milliseconds) are `Int`.
* A JavaScript object (`Record<string, any>`) is an association list of
  `(key, value)` pairs in property-insertion order; JS object keys are
  unique, and every cache key produced by `generateKey` contains a colon,
  so prototype-chain collisions cannot occur and plain association-list
  lookup is a faithful model of property access.
* Methods that perform file I/O (`saveCache`) are modelled by reporting
  whether the save was invoked; the file contents themselves are outside
  the state we reason about.
-/

/-- JSON-like values, used for raw response payloads fed to
`validateResponse` (`src/types.ts` uses `any` there). -/
inductive JVal where
  | jnull
  | jbool (b : Bool)
  | jnum (n : Int)
  | jstr (s : String)
  | jarr (elems : List JVal)
  | jobj (fields : List (String × JVal))

/-- Values that occur in the query-parameter records the repository passes
to `CacheManager.generateKey` (`dataService.ts` only ever builds records of
strings and numbers, e.g. `{ q, sort, per_page }`). -/
inductive PVal where
  | pstr (s : String)
  | pnum (n : Int)
deriving DecidableEq, Repr

/-- A `Record<string, any>` of query parameters, in property-insertion
order, as consumed by `CacheManager.generateKey`. -/
abbrev Params := List (String × PVal)

/-- One character of `JSON.stringify` string escaping (quote and backslash;
control-character escapes never arise in the identifiers this program
serializes). -/
def jsonEscapeChar (c : Char) : String :=
  if c = Char.ofNat 34 then "\\\""
  else if c = Char.ofNat 92 then "\\\\"
  else String.singleton c

/-- `JSON.stringify` escaping of a string body. -/
def jsonEscape (s : String) : String :=
  String.join (s.toList.map jsonEscapeChar)

/-- `JSON.stringify` of a string value: quoted and escaped. -/
def jsonQuote (s : String) : String :=
  "\"" ++ jsonEscape s ++ "\""

/-- `JSON.stringify` of a single parameter value. -/
def stringifyPVal : PVal → String
  | .pstr s => jsonQuote s
  | .pnum n => toString n

/-- `JSON.stringify` of the comma-separated field list of a parameter
object, in property-insertion order (exactly what `JSON.stringify` does to
a plain JS object). -/
def stringifyFields : Params → String
  | [] => ""
  | [(k, v)] => jsonQuote k ++ ":" ++ stringifyPVal v
  | (k, v) :: rest => jsonQuote k ++ ":" ++ stringifyPVal v ++ "," ++ stringifyFields rest

/-- `JSON.stringify` of a parameter object. -/
def jsonStringifyParams (ps : Params) : String :=
  "\x7b" ++ stringifyFields ps ++ "\x7d"

/-- `CacheEntry` from `src/types.ts`: `{ data, timestamp }`. -/
structure CacheEntry (α : Type) where
  data : α
  timestamp : Int
deriving DecidableEq, Repr

/-- The in-memory state of `CacheManager` (`src/cacheManager.ts`): the
`cache` object (key-unique association list in insertion order) and the
configured `cacheDuration` (TTL in milliseconds, default 300000). -/
structure CacheManager (α : Type) where
  cache : List (String × CacheEntry α)
  cacheDuration : Int
deriving DecidableEq, Repr

namespace CacheManager

/-- `generateKey` (cacheManager.ts:51-54):
`` `${endpoint}:${params ? JSON.stringify(params) : ''}` ``.
A present (possibly empty) parameter object is JSON-stringified; an absent
one serializes to the empty string. -/
def generateKey (endpoint : String) (params : Option Params) : String :=
  let paramsString := match params with
    | some ps => jsonStringifyParams ps
    | none => ""
  endpoint ++ ":" ++ paramsString

/-- `isValid` (cacheManager.ts:59-62): `(now - entry.timestamp) < this.cacheDuration`,
a strict inequality. -/
def isValid (cm : CacheManager α) (now : Int) (entry : CacheEntry α) : Bool :=
  now - entry.timestamp < cm.cacheDuration

/-- `this.cache[key] = value`: overwrite in place when the key exists,
append otherwise (JS object property assignment). -/
def objSet (m : List (String × β)) (k : String) (v : β) : List (String × β) :=
  match m with
  | [] => [(k, v)]
  | (k2, v2) :: rest => if k2 = k then (k, v) :: rest else (k2, v2) :: objSet rest k v

/-- `get` (cacheManager.ts:67-77): derive the key, look the entry up, and
return its data only when the entry exists and is valid. The returned
`CacheManager` is the (unchanged) state after the call: `get` never
mutates the cache, in particular it does not delete expired entries. -/
def get (cm : CacheManager α) (now : Int) (endpoint : String)
    (params : Option Params) : Option α × CacheManager α :=
  let key := generateKey endpoint params
  match cm.cache.lookup key with
  | some entry => if cm.isValid now entry then (some entry.data, cm) else (none, cm)
  | none => (none, cm)

/-- `set` (cacheManager.ts:82-89): write/overwrite the entry under the key
with a fresh timestamp (then persist; persistence does not change the
in-memory state we model). -/
def set (cm : CacheManager α) (now : Int) (endpoint : String) (data : α)
    (params : Option Params) : CacheManager α :=
  { cm with cache := objSet cm.cache (generateKey endpoint params) ⟨data, now⟩ }

/-- `clear` (cacheManager.ts:94-98): empty the map. -/
def clear (cm : CacheManager α) : CacheManager α :=
  { cm with cache := [] }

/-- `cleanup` (cacheManager.ts:103-118): delete every entry that fails
`isValid` (the keys are unique, so the forEach-with-delete loop retains
exactly the valid entries, in order). Returns the new state, the
`removedCount`, and whether `saveCache` was invoked (`removedCount > 0`). -/
def cleanup (cm : CacheManager α) (now : Int) : CacheManager α × Nat × Bool :=
  let remaining := cm.cache.filter (fun kv => cm.isValid now kv.2)
  let removedCount := cm.cache.length - remaining.length
  ({ cm with cache := remaining }, removedCount, decide (removedCount > 0))

/-- The record returned by `getStats`. -/
structure Stats where
  totalEntries : Nat
  validEntries : Nat
  expiredEntries : Nat
deriving DecidableEq, Repr

/-- `getStats` (cacheManager.ts:123-132): live scan of all entries against
the TTL at call time. -/
def getStats (cm : CacheManager α) (now : Int) : Stats :=
  let total := cm.cache.length
  let valid := (cm.cache.filter (fun kv => cm.isValid now kv.2)).length
  { totalEntries := total, validEntries := valid, expiredEntries := total - valid }

end CacheManager

/-- `APIError` from `src/types.ts`: an `Error` carrying an optional
`statusCode` and the raw response body. -/
structure APIError where
  message : String
  statusCode : Option Int := none
  response : Option JVal := none

/-- The part of an axios response that `handleError` inspects:
`error.response.status` and `error.response.data`. -/
structure AxiosResponse where
  status : Int
  data : JVal

/-- The part of an `AxiosError` that `handleError` inspects: the transport
error `code`, the underlying `message`, and the optional HTTP response. -/
structure AxiosErrorInput where
  code : Option String
  message : String
  response : Option AxiosResponse

namespace GitHubAPIClient

/-- The configured request timeout (apiClient.ts:11): 10000 ms. -/
def timeout : Int := 10000

/-- `handleError` (apiClient.ts:33-81): normalize a raw axios failure into
exactly one `APIError`. Transport codes are checked first; when a response
was received, the message is selected by status code and both the status
code and the raw body are attached. The TS method `throw`s the error; the
model returns the single error value thrown. -/
def handleError (error : AxiosErrorInput) : APIError :=
  if error.code = some "ECONNABORTED" then
    { message := "Request timeout: The request took longer than " ++ toString timeout ++ "ms" }
  else if error.code = some "ENOTFOUND" ∨ error.code = some "EAI_AGAIN" then
    { message := "Network error: Unable to connect to GitHub API. Please check your internet connection." }
  else
    match error.response with
    | none => { message := "Network error: " ++ error.message }
    | some resp =>
      let statusCode := resp.status
      let msg :=
        if statusCode = 400 then "Bad Request: Invalid parameters provided"
        else if statusCode = 401 then "Unauthorized: Invalid or missing authentication token"
        else if statusCode = 403 then "Rate limit exceeded: GitHub API rate limit reached. Please try again later."
        else if statusCode = 404 then "Not Found: The requested resource does not exist"
        else if statusCode = 422 then "Validation Failed: The request contains invalid fields"
        else if statusCode = 500 ∨ statusCode = 502 ∨ statusCode = 503 then
          "Server Error: GitHub API is currently unavailable"
        else "HTTP Error " ++ toString statusCode ++ ": " ++ error.message
      { message := msg, statusCode := some statusCode, response := some resp.data }

/-- JS truthiness of a decoded payload (`!data`). -/
def jsTruthy : JVal → Bool
  | .jnull => false
  | .jbool b => b
  | .jnum n => n ≠ 0
  | .jstr s => s ≠ ""
  | .jarr _ => true
  | .jobj _ => true

/-- `typeof data === 'object'` for a decoded payload (arrays and `null`
are of type object in JS). -/
def jsTypeofObject : JVal → Bool
  | .jnull => true
  | .jarr _ => true
  | .jobj _ => true
  | _ => false

/-- The property names every plain JS object inherits from
`Object.prototype` (its standard own properties, stable since ES5): the
JS `in` operator reports each of these as present on any object produced
by `JSON.parse`, whether or not it occurs in the JSON text. -/
def objectProtoProps : List String :=
  ["constructor", "hasOwnProperty", "isPrototypeOf", "propertyIsEnumerable",
   "toLocaleString", "toString", "valueOf",
   "__defineGetter__", "__defineSetter__", "__lookupGetter__", "__lookupSetter__",
   "__proto__"]

/-- The method names a JS array inherits from `Array.prototype`
(the ES2023 standard set; `length` is an own property and is listed in
`jsHasField` directly). `Array.prototype` itself inherits from
`Object.prototype`, which `jsHasField` appends. -/
def arrayProtoProps : List String :=
  ["at", "concat", "copyWithin", "entries", "every", "fill", "filter",
   "find", "findIndex", "findLast", "findLastIndex", "flat", "flatMap",
   "forEach", "includes", "indexOf", "join", "keys", "lastIndexOf", "map",
   "pop", "push", "reduce", "reduceRight", "reverse", "shift", "slice",
   "some", "sort", "splice", "toLocaleString", "toReversed", "toSorted",
   "toSpliced", "toString", "unshift", "values", "with"]

/-- `field in data`: JS property membership, which searches the object's
own properties *and its prototype chain*. A `JSON.parse`-produced object
has its own keys plus everything on `Object.prototype` (so
`'toString' in {}` is `true`); an array has its indices and `length` plus
`Array.prototype` and `Object.prototype` members. -/
def jsHasField (data : JVal) (field : String) : Bool :=
  match data with
  | .jobj fields => fields.any (fun kv => kv.1 = field) || objectProtoProps.contains field
  | .jarr elems => field = "length" || (List.range elems.length).any (fun i => toString i = field)
      || arrayProtoProps.contains field || objectProtoProps.contains field
  | _ => false

/-- An apostrophe, as a string (the quote around the field name in the
validation-error message). -/
def sq : String := String.singleton (Char.ofNat 39)

/-- `validateResponse` (apiClient.ts:86-98): reject anything that is not a
truthy value of type object, then fail on the first required field not
present in the payload (presence, not non-nullness); otherwise return the
payload unchanged. -/
def validateResponse (data : JVal) (requiredFields : List String) : Except String JVal :=
  if !(jsTruthy data && jsTypeofObject data) then
    .error "Invalid response: Expected object but received invalid data"
  else
    match requiredFields.find? (fun f => !jsHasField data f) with
    | some f => .error ("Invalid response: Missing required field " ++ sq ++ f ++ sq)
    | none => .ok data

end GitHubAPIClient

/-- The fields of `GitHubRepository` (`src/types.ts`) that the Data
Service's filtering and lookup logic reads; the remaining fields are
presentation-only and never inspected by the code under proof. -/
structure GitHubRepository where
  id : Int
  name : String
  full_name : String
  stargazers_count : Int
  language : Option String
  archived : Bool
deriving DecidableEq, Repr

/-- `FilterOptions` from `src/types.ts`: every criterion optional. -/
structure FilterOptions where
  language : Option String := none
  minStars : Option Int := none
  maxStars : Option Int := none
  archived : Option Bool := none
deriving DecidableEq, Repr

namespace DataService

/-- JS truthiness of the optional `filters.language` string
(`if (filters.language)`): absent and empty strings are falsy. -/
def langTruthy : Option String → Bool
  | some s => s ≠ ""
  | none => false

/-- The language predicate from `filterRepositories`
(`repo.language?.toLowerCase() === filters.language?.toLowerCase()`): a
repository with `language: null` never matches. -/
def langPred (flang : Option String) (repo : GitHubRepository) : Bool :=
  match repo.language, flang with
  | some rl, some fl => rl.toLower = fl.toLower
  | _, _ => false

/-- `filterRepositories` (dataService.ts): apply, in order, the language,
minimum-stars, maximum-stars and archived filters, each only when its
criterion passes the corresponding supplied-check from the source
(truthiness for `language`, `!== undefined` for the rest). -/
def filterRepositories (repositories : List GitHubRepository)
    (filters : FilterOptions) : List GitHubRepository :=
  let f1 := if langTruthy filters.language then
      repositories.filter (langPred filters.language)
    else repositories
  let f2 := match filters.minStars with
    | some m => f1.filter (fun repo => m ≤ repo.stargazers_count)
    | none => f1
  let f3 := match filters.maxStars with
    | some m => f2.filter (fun repo => repo.stargazers_count ≤ m)
    | none => f2
  match filters.archived with
  | some a => f3.filter (fun repo => repo.archived = a)
  | none => f3

/-- `getRepositoryById` (dataService.ts): first element with the given id. -/
def getRepositoryById (repositories : List GitHubRepository) (id : Int) :
    Option GitHubRepository :=
  repositories.find? (fun repo => repo.id = id)

/-- `searchRepositories` (dataService.ts:21-42): cache-then-fetch with key
`search/repositories` and params `{ q, sort, per_page }`. The API call is
modelled by its outcome `api`; the function returns the payload-or-error
together with the cache state after the call. (The payload types this
service caches are JS arrays/objects, which are always truthy, so the
source's `if (cached)` test is exactly a hit test.) -/
def searchRepositories (cm : CacheManager α) (now : Int) (query sort : String)
    (perPage : Int) (api : Except APIError α) :
    Except APIError α × CacheManager α :=
  let cacheKey := "search/repositories"
  let params : Params := [("q", .pstr query), ("sort", .pstr sort), ("per_page", .pnum perPage)]
  match (cm.get now cacheKey (some params)).1 with
  | some cached => (.ok cached, cm)
  | none =>
    match api with
    | .error e => (.error e, cm)
    | .ok data => (.ok data, cm.set now cacheKey data (some params))

/-- `getRepository` (dataService.ts:47-63): cache-then-fetch with key
`repos/{owner}/{repo}` and no params. -/
def getRepository (cm : CacheManager α) (now : Int) (owner repo : String)
    (api : Except APIError α) : Except APIError α × CacheManager α :=
  let cacheKey := "repos/" ++ owner ++ "/" ++ repo
  match (cm.get now cacheKey none).1 with
  | some cached => (.ok cached, cm)
  | none =>
    match api with
    | .error e => (.error e, cm)
    | .ok data => (.ok data, cm.set now cacheKey data none)

/-- `getUser` (dataService.ts:68-84): cache-then-fetch with key
`users/{username}` and no params. -/
def getUser (cm : CacheManager α) (now : Int) (username : String)
    (api : Except APIError α) : Except APIError α × CacheManager α :=
  let cacheKey := "users/" ++ username
  match (cm.get now cacheKey none).1 with
  | some cached => (.ok cached, cm)
  | none =>
    match api with
    | .error e => (.error e, cm)
    | .ok data => (.ok data, cm.set now cacheKey data none)

/-- `getUserRepositories` (dataService.ts:89-110): cache-then-fetch with
key `users/{username}/repos` and params `{ sort, per_page }`. -/
def getUserRepositories (cm : CacheManager α) (now : Int) (username sort : String)
    (perPage : Int) (api : Except APIError α) :
    Except APIError α × CacheManager α :=
  let cacheKey := "users/" ++ username ++ "/repos"
  let params : Params := [("sort", .pstr sort), ("per_page", .pnum perPage)]
  match (cm.get now cacheKey (some params)).1 with
  | some cached => (.ok cached, cm)
  | none =>
    match api with
    | .error e => (.error e, cm)
    | .ok data => (.ok data, cm.set now cacheKey data (some params))

/-- The pointwise conjunction actually computed by the source's
`filterRepositories` pipeline: each conjunct is active under the source's
own supplied-check (truthiness for `language`, presence for the rest). -/
def matchesFilters (filters : FilterOptions) (repo : GitHubRepository) : Bool :=
  (if langTruthy filters.language then langPred filters.language repo else true) &&
  (match filters.minStars with | some m => decide (m ≤ repo.stargazers_count) | none => true) &&
  (match filters.maxStars with | some m => decide (repo.stargazers_count ≤ m) | none => true) &&
  (match filters.archived with | some a => repo.archived = a | none => true)

/-- The claim's reading of the filter contract, stated from the spec's
words for comparison with the source's `filterRepositories`: the
conjunction of every *supplied* criterion, where supplied means present
(a present-but-empty language string still counts as supplied). -/
def claimFilterMatches (filters : FilterOptions) (repo : GitHubRepository) : Bool :=
  (match filters.language with
   | some fl => (match repo.language with
     | some rl => rl.toLower = fl.toLower
     | none => false)
   | none => true) &&
  (match filters.minStars with | some m => decide (m ≤ repo.stargazers_count) | none => true) &&
  (match filters.maxStars with | some m => decide (repo.stargazers_count ≤ m) | none => true) &&
  (match filters.archived with | some a => repo.archived = a | none => true)

end DataService

/-! ## Helper lemmas -/

/-- Property assignment followed by lookup of the same key finds the new
value. -/
theorem objSet_lookup {β : Type} (m : List (String × β)) (k : String) (v : β) :
    (CacheManager.objSet m k v).lookup k = some v := by
  induction m with
  | nil => simp [CacheManager.objSet, List.lookup]
  | cons kv rest ih =>
    obtain ⟨k2, v2⟩ := kv
    by_cases hk : k2 = k
    · subst hk; simp [CacheManager.objSet, List.lookup]
    · have hbeq : (k == k2) = false := beq_eq_false_iff_ne.mpr (Ne.symm hk)
      simp [CacheManager.objSet, hk, List.lookup, ih, hbeq]

/-- `get` returns `some d` exactly when an entry is stored under the
derived key, that entry is valid, and its data is `d`; and `get` leaves
the cache state unchanged. -/
theorem get_spec {α : Type} (cm : CacheManager α) (now : Int)
    (endpoint : String) (params : Option Params) :
    (∀ d : α, (cm.get now endpoint params).1 = some d ↔
      ∃ e, cm.cache.lookup (CacheManager.generateKey endpoint params) = some e ∧
        cm.isValid now e = true ∧ e.data = d) ∧
    (cm.get now endpoint params).2 = cm := by
  unfold CacheManager.get
  constructor
  · intro d
    cases h : cm.cache.lookup (CacheManager.generateKey endpoint params) with
    | none => simp [h]
    | some e =>
      by_cases hv : cm.isValid now e
      · simp [h, hv]
      · simp [h, hv]
  · cases h : cm.cache.lookup (CacheManager.generateKey endpoint params) with
    | none => simp [h]
    | some e =>
      by_cases hv : cm.isValid now e
      · simp [h, hv]
      · simp [h, hv]

/-! ## Claims -/

/-- C9: for every endpoint, the key derived with absent parameters is a
different string from the key derived with an explicitly empty parameter
object — absent serializes to the empty suffix, empty to the two-character
object literal, so the two entries never collide. -/
theorem C9_absent_vs_empty_params (endpoint : String) :
    CacheManager.generateKey endpoint none ≠ CacheManager.generateKey endpoint (some []) := by
  intro h
  have hlen := congrArg String.length h
  simp [CacheManager.generateKey, jsonStringifyParams, stringifyFields,
    String.length_append] at hlen
  exact absurd hlen (by decide)

/-- C1 counterexample: the two-field parameter records
`{a: "1", b: "2"}` and `{b: "2", a: "1"}` are equal as sets of
(name, value) pairs (a permutation), yet `generateKey` produces different
keys for them — serialization is insertion-ordered, not sorted by name. -/
theorem C1_counterexample :
    ([(("a" : String), PVal.pstr "1"), ("b", PVal.pstr "2")]).Perm
      [("b", PVal.pstr "2"), ("a", PVal.pstr "1")] ∧
    CacheManager.generateKey "e" (some [("a", PVal.pstr "1"), ("b", PVal.pstr "2")]) ≠
      CacheManager.generateKey "e" (some [("b", PVal.pstr "2"), ("a", PVal.pstr "1")]) :=
  ⟨List.Perm.swap ("b", PVal.pstr "2") ("a", PVal.pstr "1") [], by decide⟩

/-- C1 (amended): key generation is deterministic but order-sensitive —
for a fixed endpoint, two explicit parameter records receive the same key
exactly when their insertion-ordered JSON serializations coincide;
parameter records that are equal as sets but differently ordered may
receive different keys. -/
theorem C1_key_eq_iff_serialization_eq (endpoint : String) (p1 p2 : Params) :
    CacheManager.generateKey endpoint (some p1) = CacheManager.generateKey endpoint (some p2) ↔
      jsonStringifyParams p1 = jsonStringifyParams p2 := by
  unfold CacheManager.generateKey
  constructor
  · intro h
    have hd := congrArg String.data h
    simp only [String.data_append] at hd
    exact String.ext (by simpa using hd)
  · intro h
    simp only [h]

/-- C2: `get` returns the stored payload precisely when an entry exists
under the derived key and `now - entry.timestamp < cacheDuration`
(strictly); otherwise it returns `none`, and in every case — including
the expired one — the cache state is unchanged by the call. -/
theorem C2_get_returns_iff_fresh (α : Type) (cm : CacheManager α) (now : Int)
    (endpoint : String) (params : Option Params) :
    (∀ d : α, (cm.get now endpoint params).1 = some d ↔
      ∃ e, cm.cache.lookup (CacheManager.generateKey endpoint params) = some e ∧
        now - e.timestamp < cm.cacheDuration ∧ e.data = d) ∧
    (cm.get now endpoint params).2 = cm := by
  obtain ⟨h1, h2⟩ := get_spec cm now endpoint params
  refine ⟨fun d => (h1 d).trans ?_, h2⟩
  constructor
  · rintro ⟨e, he, hv, hd⟩
    exact ⟨e, he, by simpa [CacheManager.isValid] using hv, hd⟩
  · rintro ⟨e, he, hv, hd⟩
    exact ⟨e, he, by simpa [CacheManager.isValid] using hv, hd⟩

/-- C7: writing a payload and reading it back under the same endpoint and
parameters, at any read time strictly within the TTL of the write time,
returns exactly the payload written — also when the write overwrote a
previous entry under the same key. -/
theorem C7_set_get_roundtrip (α : Type) (cm : CacheManager α) (t0 t1 : Int)
    (endpoint : String) (params : Option Params) (payload : α)
    (h : t1 - t0 < cm.cacheDuration) :
    ((cm.set t0 endpoint payload params).get t1 endpoint params).1 = some payload := by
  unfold CacheManager.get CacheManager.set
  simp [objSet_lookup, CacheManager.isValid, h]

/-- C7 witness: overwriting the stale entry stored under
`users/octocat` + absent params and reading it back 1 ms later returns the
fresh payload. -/
theorem C7_set_get_roundtrip_witness :
    ((1 : Int) - 0 < ((⟨[("users/octocat:", ⟨5, -7⟩)], 300000⟩ : CacheManager Int)).cacheDuration) ∧
    (((⟨[("users/octocat:", ⟨5, -7⟩)], 300000⟩ : CacheManager Int).set 0 "users/octocat" 9 none).get
        1 "users/octocat" none).1 = some 9 :=
  ⟨by decide,
   C7_set_get_roundtrip Int ⟨[("users/octocat:", ⟨5, -7⟩)], 300000⟩ 0 1
     "users/octocat" none 9 (by decide)⟩

/-- C4 counterexample: with TTL 100, an entry written at time 0 has age
exactly 100 at time 100 — its age does not exceed the TTL — yet
`cleanup` at time 100 removes it (and reports one removal): the code
removes at age ≥ TTL, not age > TTL. -/
theorem C4_counterexample :
    ¬ ((100 : Int) - 0 > 100) ∧
    ((⟨[("k", ⟨0, 0⟩)], 100⟩ : CacheManager Int).cleanup 100).1.cache = [] ∧
    ((⟨[("k", ⟨0, 0⟩)], 100⟩ : CacheManager Int).cleanup 100).2.1 = 1 := by
  decide

/-- C4 (amended): `cleanup` removes exactly the entries whose age is at
least the TTL (the invalid ones) and keeps every valid entry untouched —
same key, same data, same timestamp, same order; it reports
`saveCache` exactly when at least one entry was removed; the removed
count equals the expired count `stats` reported before the call, the
total drops by exactly that count, the valid count is unchanged, and no
expired entry remains. -/
theorem C4_cleanup_removes_invalid (α : Type) (cm : CacheManager α) (now : Int) :
    (cm.cleanup now).1.cache = cm.cache.filter (fun kv => cm.isValid now kv.2) ∧
    (cm.cleanup now).1.cacheDuration = cm.cacheDuration ∧
    (cm.cleanup now).2.1 = (cm.getStats now).expiredEntries ∧
    ((cm.cleanup now).2.2 = true ↔ 0 < (cm.cleanup now).2.1) ∧
    ((cm.cleanup now).1.getStats now).totalEntries =
      (cm.getStats now).totalEntries - (cm.cleanup now).2.1 ∧
    ((cm.cleanup now).1.getStats now).validEntries = (cm.getStats now).validEntries ∧
    ((cm.cleanup now).1.getStats now).expiredEntries = 0 := by
  have hle := List.length_filter_le (fun kv => cm.isValid now kv.2) cm.cache
  have hidem : (cm.cache.filter (fun kv => cm.isValid now kv.2)).filter
      (fun kv => cm.isValid now kv.2) = cm.cache.filter (fun kv => cm.isValid now kv.2) := by
    simp [List.filter_filter]
  refine ⟨rfl, rfl, rfl, by simp [CacheManager.cleanup], ?_, ?_, ?_⟩
  · simp only [CacheManager.cleanup, CacheManager.getStats, CacheManager.isValid] at hle ⊢
    omega
  · simp only [CacheManager.cleanup, CacheManager.getStats, CacheManager.isValid] at hidem ⊢
    rw [hidem]
  · simp only [CacheManager.cleanup, CacheManager.getStats, CacheManager.isValid] at hidem ⊢
    rw [hidem]
    omega

/-- C10: one validity predicate — strict `now - timestamp < cacheDuration` —
governs `get`, `cleanup` and `getStats` alike: at a fixed instant `get`
returns a payload exactly when its entry is `isValid`, `cleanup` retains
exactly the `isValid` entries, `getStats` counts exactly the `isValid`
entries as valid with `total = valid + expired` always, and an entry whose
age equals the TTL exactly is invalid (hence expired) for all three. -/
theorem C10_single_validity_predicate (α : Type) (cm : CacheManager α) (now : Int) :
    (∀ (endpoint : String) (params : Option Params) (d : α),
      (cm.get now endpoint params).1 = some d ↔
        ∃ e, cm.cache.lookup (CacheManager.generateKey endpoint params) = some e ∧
          cm.isValid now e = true ∧ e.data = d) ∧
    (cm.cleanup now).1.cache = cm.cache.filter (fun kv => cm.isValid now kv.2) ∧
    ((cm.getStats now).validEntries =
        (cm.cache.filter (fun kv => cm.isValid now kv.2)).length ∧
      (cm.getStats now).totalEntries = cm.cache.length ∧
      (cm.getStats now).totalEntries =
        (cm.getStats now).validEntries + (cm.getStats now).expiredEntries) ∧
    (∀ e : CacheEntry α, now - e.timestamp = cm.cacheDuration →
      cm.isValid now e = false) := by
  have hle := List.length_filter_le (fun kv => cm.isValid now kv.2) cm.cache
  refine ⟨fun endpoint params d => (get_spec cm now endpoint params).1 d, rfl,
    ⟨rfl, rfl, ?_⟩, ?_⟩
  · simp only [CacheManager.getStats]
    omega
  · intro e he
    simp [CacheManager.isValid, he]

/-- C10 witness: with TTL 300000 and an entry stored at time 0, at time
300000 (age = TTL exactly) the shared validity predicate rejects the
entry. -/
theorem C10_single_validity_predicate_witness :
    (⟨[], 300000⟩ : CacheManager Int).isValid 300000 ⟨42, 0⟩ = false :=
  (C10_single_validity_predicate Int ⟨[], 300000⟩ 300000).2.2.2 ⟨42, 0⟩ (by decide)

/-- C5: the error normalizer produces one `APIError` per failure: a
transport timeout yields the message that embeds the configured 10000 ms
timeout; when an HTTP response was received (no transport-code branch
fired), the status code and raw body are attached in every case, and
statuses 403 / 404 / 500 select the rate-limit / not-found /
server-unavailable messages respectively. -/
theorem C5_handleError_normalization (err : AxiosErrorInput) :
    (err.code = some "ECONNABORTED" →
      (GitHubAPIClient.handleError err).message =
        "Request timeout: The request took longer than " ++
          toString GitHubAPIClient.timeout ++ "ms" ∧
      GitHubAPIClient.timeout = 10000) ∧
    (err.code ≠ some "ECONNABORTED" → err.code ≠ some "ENOTFOUND" →
      err.code ≠ some "EAI_AGAIN" →
      ∀ resp, err.response = some resp →
        ((GitHubAPIClient.handleError err).statusCode = some resp.status ∧
         (GitHubAPIClient.handleError err).response = some resp.data) ∧
        (resp.status = 403 → (GitHubAPIClient.handleError err).message =
          "Rate limit exceeded: GitHub API rate limit reached. Please try again later.") ∧
        (resp.status = 404 → (GitHubAPIClient.handleError err).message =
          "Not Found: The requested resource does not exist") ∧
        (resp.status = 500 → (GitHubAPIClient.handleError err).message =
          "Server Error: GitHub API is currently unavailable")) := by
  constructor
  · intro h
    exact ⟨by simp [GitHubAPIClient.handleError, h], rfl⟩
  · intro h1 h2 h3 resp hresp
    refine ⟨?_, ?_, ?_, ?_⟩
    · simp [GitHubAPIClient.handleError, h1, h2, h3, hresp]
    · intro hs; simp [GitHubAPIClient.handleError, h1, h2, h3, hresp, hs]
    · intro hs; simp [GitHubAPIClient.handleError, h1, h2, h3, hresp, hs]
    · intro hs; simp [GitHubAPIClient.handleError, h1, h2, h3, hresp, hs]

/-- C5 witness: a concrete timeout failure carries the 10000 ms message,
and a concrete 403 response carries the rate-limit message with its status
code and raw body attached. -/
theorem C5_handleError_normalization_witness :
    ((GitHubAPIClient.handleError ⟨some "ECONNABORTED", "t", none⟩).message =
      "Request timeout: The request took longer than " ++
        toString GitHubAPIClient.timeout ++ "ms") ∧
    ((GitHubAPIClient.handleError ⟨none, "t", some ⟨403, JVal.jnull⟩⟩).statusCode = some 403) ∧
    ((GitHubAPIClient.handleError ⟨none, "t", some ⟨403, JVal.jnull⟩⟩).response = some JVal.jnull) ∧
    ((GitHubAPIClient.handleError ⟨none, "t", some ⟨403, JVal.jnull⟩⟩).message =
      "Rate limit exceeded: GitHub API rate limit reached. Please try again later.") :=
  ⟨((C5_handleError_normalization ⟨some "ECONNABORTED", "t", none⟩).1 rfl).1,
   (((C5_handleError_normalization ⟨none, "t", some ⟨403, JVal.jnull⟩⟩).2
      (by decide) (by decide) (by decide) ⟨403, JVal.jnull⟩ rfl).1).1,
   (((C5_handleError_normalization ⟨none, "t", some ⟨403, JVal.jnull⟩⟩).2
      (by decide) (by decide) (by decide) ⟨403, JVal.jnull⟩ rfl).1).2,
   (((C5_handleError_normalization ⟨none, "t", some ⟨403, JVal.jnull⟩⟩).2
      (by decide) (by decide) (by decide) ⟨403, JVal.jnull⟩ rfl).2).1 rfl⟩

/-- C6 counterexample: the required field `toString` is absent from the
empty-object payload — the payload has no fields at all — yet validation
succeeds instead of failing, because the source tests `field in data` and
the JS `in` operator finds `toString` on `Object.prototype` of every
parsed object. -/
theorem C6_counterexample :
    (([] : List (String × JVal)).map Prod.fst).contains "toString" = false ∧
    GitHubAPIClient.validateResponse (.jobj []) ["toString"] = .ok (.jobj []) :=
  ⟨rfl, rfl⟩

/-- C6 (amended): on a structured-object payload the validator fails with
the validation error naming the first required field not present in the
sense of the JS `in` operator, and succeeds — returning the payload
unchanged — whenever every required field is `in`-present; an own field is
`in`-present even when its value is `null` (presence, not non-nullness,
is checked), but a required field named after an `Object.prototype`
member (`toString`, `constructor`, ...) is `in`-present on every payload,
so its absence from the payload's own fields is never reported. -/
theorem C6_validateResponse_presence (fields : List (String × JVal)) (req : List String) :
    (∀ f, req.find? (fun g => !GitHubAPIClient.jsHasField (.jobj fields) g) = some f →
      f ∈ req ∧ GitHubAPIClient.jsHasField (.jobj fields) f = false ∧
      GitHubAPIClient.validateResponse (.jobj fields) req =
        .error ("Invalid response: Missing required field " ++
          GitHubAPIClient.sq ++ f ++ GitHubAPIClient.sq)) ∧
    ((∀ f ∈ req, GitHubAPIClient.jsHasField (.jobj fields) f = true) →
      GitHubAPIClient.validateResponse (.jobj fields) req = .ok (.jobj fields)) ∧
    (∀ (v : JVal) (f : String), (f, v) ∈ fields →
      GitHubAPIClient.jsHasField (.jobj fields) f = true) ∧
    (∀ f ∈ GitHubAPIClient.objectProtoProps,
      GitHubAPIClient.jsHasField (.jobj fields) f = true) := by
  refine ⟨?_, ?_, ?_, ?_⟩
  · intro f hf
    refine ⟨List.mem_of_find?_eq_some hf, ?_, ?_⟩
    · have := List.find?_some hf
      simpa using this
    · simp [GitHubAPIClient.validateResponse, GitHubAPIClient.jsTruthy,
        GitHubAPIClient.jsTypeofObject, hf]
  · intro hall
    have hnone : req.find? (fun g => !GitHubAPIClient.jsHasField (.jobj fields) g) = none := by
      rw [List.find?_eq_none]
      intro g hg
      simp [hall g hg]
    simp [GitHubAPIClient.validateResponse, GitHubAPIClient.jsTruthy,
      GitHubAPIClient.jsTypeofObject, hnone]
  · intro v f hmem
    simp only [GitHubAPIClient.jsHasField, Bool.or_eq_true, List.any_eq_true]
    exact Or.inl ⟨(f, v), hmem, by simp⟩
  · intro f hmem
    simp [GitHubAPIClient.jsHasField, hmem]

/-- C6 witness: the payload `{id: null}` passes validation against
required fields `[id]` (null value, but present), and fails against
`[login, id]` with the error naming `login`, the first field not
`in`-present. -/
theorem C6_validateResponse_presence_witness :
    GitHubAPIClient.validateResponse (.jobj [("id", JVal.jnull)]) ["id"] =
      .ok (.jobj [("id", JVal.jnull)]) ∧
    GitHubAPIClient.validateResponse (.jobj [("id", JVal.jnull)]) ["login", "id"] =
      .error ("Invalid response: Missing required field " ++
        GitHubAPIClient.sq ++ "login" ++ GitHubAPIClient.sq) :=
  ⟨(C6_validateResponse_presence [("id", JVal.jnull)] ["id"]).2.1
     (by intro f hf; fin_cases hf; decide),
   ((C6_validateResponse_presence [("id", JVal.jnull)] ["login", "id"]).1
     "login" (by decide)).2.2⟩

/-- C8 counterexample: with the supplied criterion `language = ""` (an
empty string is supplied but JS-falsy) and a repository whose language is
`null`, the code keeps the repository — the language filter is skipped —
although the repository fails the conjunction of the supplied criteria
that the claim prescribes. -/
theorem C8_counterexample :
    DataService.filterRepositories [⟨1, "r", "o/r", 0, none, false⟩]
      ⟨some "", none, none, none⟩ = [⟨1, "r", "o/r", 0, none, false⟩] ∧
    DataService.claimFilterMatches ⟨some "", none, none, none⟩
      ⟨1, "r", "o/r", 0, none, false⟩ = false := by
  decide

/-- C8 (amended): `filterRepositories` returns exactly the elements
satisfying the conjunction of the active criteria — language as
case-insensitive equality (a null repository language never matches),
minStars as an inclusive lower bound, maxStars as an inclusive upper
bound, archived as boolean equality — where minStars/maxStars/archived
are active exactly when supplied, and language is active exactly when
supplied *and non-empty* (the source tests JS truthiness, so a supplied
empty language string deactivates that filter instead of filtering); in
particular, with minStars=100 and maxStars=500 on a list with star counts
50, 100, 300, 500, 900 it returns exactly the items with stars 100, 300,
500. -/
theorem C8_filter_conjunction (repos : List GitHubRepository) (filters : FilterOptions) :
    DataService.filterRepositories repos filters =
      repos.filter (fun r => DataService.matchesFilters filters r) ∧
    DataService.filterRepositories
      [⟨1, "a", "o/a", 50, none, false⟩, ⟨2, "b", "o/b", 100, none, false⟩,
       ⟨3, "c", "o/c", 300, none, false⟩, ⟨4, "d", "o/d", 500, none, false⟩,
       ⟨5, "e", "o/e", 900, none, false⟩]
      ⟨none, some 100, some 500, none⟩ =
      [⟨2, "b", "o/b", 100, none, false⟩, ⟨3, "c", "o/c", 300, none, false⟩,
       ⟨4, "d", "o/d", 500, none, false⟩] := by
  refine ⟨?_, by decide⟩
  obtain ⟨lang, mn, mx, ar⟩ := filters
  simp only [DataService.filterRepositories, DataService.matchesFilters]
  cases hl : DataService.langTruthy lang <;>
    cases mn <;> cases mx <;> cases ar <;>
      simp [DataService.matchesFilters, hl, List.filter_filter,
        Bool.and_comm, Bool.and_assoc, Bool.and_left_comm]

/-- C3: each of the four Data Service read operations returns the cached
payload unchanged on a hit — independently of whatever the API would have
produced, so the client is not consulted — and on a miss either
propagates the API failure unchanged without touching the cache, or, on
API success, stores the fetched payload under the operation's key before
returning that same payload. -/
theorem C3_dataservice_orchestration (α : Type) (cm : CacheManager α) (now : Int)
    (query sort owner repo username : String) (perPage : Int)
    (e : APIError) (d : α) :
    ((∀ c, (cm.get now "search/repositories"
        (some [("q", .pstr query), ("sort", .pstr sort), ("per_page", .pnum perPage)])).1 = some c →
      ∀ api, DataService.searchRepositories cm now query sort perPage api = (.ok c, cm)) ∧
     ((cm.get now "search/repositories"
        (some [("q", .pstr query), ("sort", .pstr sort), ("per_page", .pnum perPage)])).1 = none →
      DataService.searchRepositories cm now query sort perPage (.error e) = (.error e, cm) ∧
      DataService.searchRepositories cm now query sort perPage (.ok d) =
        (.ok d, cm.set now "search/repositories" d
          (some [("q", .pstr query), ("sort", .pstr sort), ("per_page", .pnum perPage)])))) ∧
    ((∀ c, (cm.get now ("repos/" ++ owner ++ "/" ++ repo) none).1 = some c →
      ∀ api, DataService.getRepository cm now owner repo api = (.ok c, cm)) ∧
     ((cm.get now ("repos/" ++ owner ++ "/" ++ repo) none).1 = none →
      DataService.getRepository cm now owner repo (.error e) = (.error e, cm) ∧
      DataService.getRepository cm now owner repo (.ok d) =
        (.ok d, cm.set now ("repos/" ++ owner ++ "/" ++ repo) d none))) ∧
    ((∀ c, (cm.get now ("users/" ++ username) none).1 = some c →
      ∀ api, DataService.getUser cm now username api = (.ok c, cm)) ∧
     ((cm.get now ("users/" ++ username) none).1 = none →
      DataService.getUser cm now username (.error e) = (.error e, cm) ∧
      DataService.getUser cm now username (.ok d) =
        (.ok d, cm.set now ("users/" ++ username) d none))) ∧
    ((∀ c, (cm.get now ("users/" ++ username ++ "/repos")
        (some [("sort", .pstr sort), ("per_page", .pnum perPage)])).1 = some c →
      ∀ api, DataService.getUserRepositories cm now username sort perPage api = (.ok c, cm)) ∧
     ((cm.get now ("users/" ++ username ++ "/repos")
        (some [("sort", .pstr sort), ("per_page", .pnum perPage)])).1 = none →
      DataService.getUserRepositories cm now username sort perPage (.error e) = (.error e, cm) ∧
      DataService.getUserRepositories cm now username sort perPage (.ok d) =
        (.ok d, cm.set now ("users/" ++ username ++ "/repos") d
          (some [("sort", .pstr sort), ("per_page", .pnum perPage)])))) := by
  refine ⟨⟨?_, ?_⟩, ⟨?_, ?_⟩, ⟨?_, ?_⟩, ⟨?_, ?_⟩⟩
  · intro c hc api
    simp [DataService.searchRepositories, hc]
  · intro hm
    exact ⟨by simp [DataService.searchRepositories, hm],
           by simp [DataService.searchRepositories, hm]⟩
  · intro c hc api
    simp [DataService.getRepository, hc]
  · intro hm
    exact ⟨by simp [DataService.getRepository, hm],
           by simp [DataService.getRepository, hm]⟩
  · intro c hc api
    simp [DataService.getUser, hc]
  · intro hm
    exact ⟨by simp [DataService.getUser, hm],
           by simp [DataService.getUser, hm]⟩
  · intro c hc api
    simp [DataService.getUserRepositories, hc]
  · intro hm
    exact ⟨by simp [DataService.getUserRepositories, hm],
           by simp [DataService.getUserRepositories, hm]⟩

/-- C3 witness: with an empty cache, `getUser` propagates a concrete API
failure unchanged without writing, and stores a concrete successful
payload; with a cache already holding a fresh entry under the `getUser`
key, the cached payload is returned for any API outcome. -/
theorem C3_dataservice_orchestration_witness :
    (DataService.getUser (⟨[], 300000⟩ : CacheManager Int) 0 "octocat"
      (.error ⟨"boom", none, none⟩) =
        (.error ⟨"boom", none, none⟩, (⟨[], 300000⟩ : CacheManager Int)) ∧
     DataService.getUser (⟨[], 300000⟩ : CacheManager Int) 0 "octocat" (.ok 7) =
        (.ok 7, (⟨[], 300000⟩ : CacheManager Int).set 0 "users/octocat" 7 none)) ∧
    DataService.getUser (⟨[("users/octocat:", ⟨7, 0⟩)], 300000⟩ : CacheManager Int) 1 "octocat"
      (.error ⟨"boom", none, none⟩) =
        (.ok 7, (⟨[("users/octocat:", ⟨7, 0⟩)], 300000⟩ : CacheManager Int)) :=
  ⟨(C3_dataservice_orchestration Int ⟨[], 300000⟩ 0 "" "" "" "" "octocat" 0
      ⟨"boom", none, none⟩ 7).2.2.1.2 (by decide),
   (C3_dataservice_orchestration Int ⟨[("users/octocat:", ⟨7, 0⟩)], 300000⟩ 1 "" "" "" ""
      "octocat" 0 ⟨"boom", none, none⟩ 7).2.2.1.1 7 (by decide) (.error ⟨"boom", none, none⟩)⟩
